import Mathlib

/-!
Model of the broken-link checking engine of the astro-broken-link-checker
repository: the per-link task body of `checkLinksInHtml` in the Foundation
and Privacy phase, together with its helpers `isValidUrl` and
`addBrokenLink`, and the path normalizers `normalizePath` and
`normalizeHtmlFilePath` from `src/phases/utils.js`.

Conventions of the embedding:
* JavaScript `Map` objects are association lists (`Cache`) or functions
  into `Finset` (`BrokenMap`).
* The filesystem, the network, the WHATWG URL resolver and the string
  codecs (`encodeURI`, `decodeURIComponent`) are abstract parameters
  collected in `Env`; a thrown `TypeError` from `new URL(...)` is `none`.
* `fs.existsSync` outcomes are `FsResult`: `found`, `missing`, or
  `errored` (the call threw; the code catches this and treats it as
  `false`).
* Side effects other than state updates are recorded as an `IOEvent`
  trace, so that "performs no I/O" is the emptiness of the trace.
-/

namespace BrokenLinks

/-!
### String primitives

The JavaScript string operations the checker uses, modelled over the
character list of a `String` (the repository only handles ASCII metadata
characters, where JavaScript UTF-16 code-unit semantics and character
semantics agree). They are written by structural recursion so that every
theorem below can be evaluated on concrete inputs.
-/

/-- JavaScript `s.startsWith(p)`. -/
def strStartsWith (s p : String) : Bool := p.data.isPrefixOf s.data

/-- JavaScript `s.endsWith(p)`. -/
def strEndsWith (s p : String) : Bool := p.data.isSuffixOf s.data

/-- JavaScript `s.includes(c)` for a single character. -/
def strContainsChar (s : String) (c : Char) : Bool := s.data.contains c

/-- JavaScript `s.trim()`. -/
def strTrim (s : String) : String :=
  ⟨((s.data.dropWhile Char.isWhitespace).reverse.dropWhile Char.isWhitespace).reverse⟩

/-- JavaScript `s.toLowerCase()`, used to model the `i` regex flag. -/
def strToLower (s : String) : String := ⟨s.data.map Char.toLower⟩

/-- JavaScript `s.split(c)[0]`: the part of the string before the first
occurrence of the separator character. -/
def takeUntilChar (s : String) (c : Char) : String := ⟨s.data.takeWhile (fun x => x != c)⟩

/-- JavaScript `s.slice(0, -n)`: drop the last `n` characters. -/
def strDropRight (s : String) (n : Nat) : String := ⟨s.data.take (s.data.length - n)⟩

/-- JavaScript `s.slice(n)` / substring from index `n`. -/
def strDrop (s : String) (n : Nat) : String := ⟨s.data.drop n⟩

/-- The `checkedLinks` cache: a JavaScript `Map` from string keys to the
boolean verdict `linkIsValid`, modelled as an association list. -/
abbrev Cache := List (String × Bool)

/-- `Map.prototype.get` (refined by `has`): the value stored for a key. -/
def cacheGet : Cache → String → Option Bool
  | [], _ => none
  | (k2, v) :: rest, k => if k2 = k then some v else cacheGet rest k

/-- `Map.prototype.set`: replace the binding for the key, or append one. -/
def cacheSet : Cache → String → Bool → Cache
  | [], k, v => [(k, v)]
  | (k2, v2) :: rest, k, v =>
    if k2 = k then (k2, v) :: rest else (k2, v2) :: cacheSet rest k v

/-- The cache-hit lookup of `checkLinksInHtml`:
`checkedLinks.has(fetchLink) || checkedLinks.has(normalizedFetchLink)`,
reading the value of the first of the two keys that is present. -/
def cacheGet2 (c : Cache) (k1 k2 : String) : Option Bool :=
  match cacheGet c k1 with
  | some v => some v
  | none => cacheGet c k2

/-- Outcome of one `fs.existsSync(p)` call: the file exists, it does not
exist, or the call threw (invalid path characters). -/
inductive FsResult where
  | found
  | missing
  | errored
  deriving DecidableEq

/-- The guarded probe inside `possiblePaths.some(...)`: `existsSync`
wrapped in `try`/`catch`, an exception counting as `false`. -/
def probeExists (fs : String → FsResult) (p : String) : Bool :=
  match fs p with
  | .found => true
  | .missing => false
  | .errored => false

/-- Model of Node `path.join` for the shapes used by the checker: a root
joined with an absolute (leading `/`) or relative segment. -/
def pathJoin (a b : String) : String :=
  if strStartsWith b "/" then a ++ b else a ++ "/" ++ b

/-- The `possiblePaths` array built for a site-local fetch link: the
decoded path, the decoded path with `index.html`, the decoded path with
`.html`, and, when the decoded form differs from the link, the same three
candidates built from the original (encoded) link. -/
def possiblePaths (distPath fetchLink decodedPath : String) : List String :=
  [pathJoin distPath decodedPath,
   pathJoin (pathJoin distPath decodedPath) "index.html",
   pathJoin distPath (decodedPath ++ ".html")] ++
  (if decodedPath ≠ fetchLink then
    [pathJoin distPath fetchLink,
     pathJoin (pathJoin distPath fetchLink) "index.html",
     pathJoin distPath (fetchLink ++ ".html")]
   else [])

/-- `Array.prototype.some` over the probes, keeping the list of paths that
were actually probed (`some` short-circuits at the first success) together
with the boolean result. -/
def probeTrace (fs : String → FsResult) : List String → List String × Bool
  | [] => ([], false)
  | p :: ps =>
    if probeExists fs p then ([p], true)
    else
      let r := probeTrace fs ps
      (p :: r.1, r.2)

/-- The local-existence verdict: `isBroken = true` when none of the
candidate paths exists. -/
def localLinkBroken (fs : String → FsResult) (distPath fetchLink decodedPath : String) : Bool :=
  !(probeTrace fs (possiblePaths distPath fetchLink decodedPath)).2

/-- Outcome of one `fetch` call: a response carrying `response.ok`, a
thrown error with `errno === ECONNRESET`, or any other thrown error. -/
inductive FetchOutcome where
  | response (ok : Bool)
  | connReset
  | otherError
  deriving DecidableEq

/-- The retry loop `while (retries < 3) { try ... catch ... }` of the
external branch, over the stream of outcomes of successive attempts.
The fuel is `3 - retries`; the attempt index counts the `fetch` calls
already made. Returns the final `isBroken` and the number of `fetch`
calls performed. When the loop exits because `retries` reached 3, the
last `catch` left `isBroken = true`. -/
def fetchAttempts (outcome : Nat → FetchOutcome) : Nat → Nat → Bool × Nat
  | 0, _ => (true, 0)
  | fuel + 1, i =>
    match outcome i with
    | .response ok => (!ok, 1)
    | .connReset =>
      let r := fetchAttempts outcome fuel (i + 1)
      (r.1, r.2 + 1)
    | .otherError => (true, 1)

/-- Final `isBroken` of the external check for a given outcome stream. -/
def fetchIsBroken (outcome : Nat → FetchOutcome) : Bool :=
  (fetchAttempts outcome 3 0).1

/-- Number of `fetch` calls performed by the retry loop. -/
def fetchCallCount (outcome : Nat → FetchOutcome) : Nat :=
  (fetchAttempts outcome 3 0).2

/-- `isValidUrl` from the source: skip `mailto:`, `tel:`, `javascript:`,
fragment-only and empty links. -/
def isValidUrl (url : String) : Bool :=
  if strStartsWith url "mailto:" || strStartsWith url "tel:" ||
     strStartsWith url "javascript:" || strStartsWith url "#" || strTrim url = ""
  then false
  else true

/-- The absolute-URL test of the per-link task:
`/^https?:\/\//i.test(link) || /^:\/\//i.test(link)`. Note the second
regular expression matches a leading `://`, not a protocol-relative
leading `//`. -/
def isAbsoluteUrl (link : String) : Bool :=
  strStartsWith (strToLower link) "http://" || strStartsWith (strToLower link) "https://" ||
  strStartsWith link "://"

/-- A value of the `astroConfigRedirects` table: either a bare destination
string or an object with a `destination` field. (The embedding uses
`Option` for presence, so the JavaScript truthiness test on the looked-up
value is modelled as presence of an entry.) -/
inductive Redirect where
  | plain (dest : String)
  | structured (destination : String)
  deriving DecidableEq

/-- `redirect.destination ? redirect.destination : redirect`. -/
def redirectDest : Redirect → String
  | .plain s => s
  | .structured d => d

/-- The redirect block of the per-link task: look the fetch link up under
its own spelling, then under its percent-decoded spelling, and take the
configured destination when present; one single hop. -/
def resolveRedirect (tbl : String → Option Redirect) (decode : String → String)
    (fetchLink : String) : String :=
  match tbl fetchLink with
  | some r => redirectDest r
  | none =>
    match tbl (decode fetchLink) with
    | some r => redirectDest r
    | none => fetchLink

/-- `normalizePath` from `src/phases/utils.js`: drop the query string and
fragment, drop a trailing `index.html` (keeping the slash) or a trailing
`.html`, and force a leading `/`. -/
def normalizePath (p : String) : String :=
  let p1 := takeUntilChar p '?'
  let p2 := takeUntilChar p1 '#'
  let p3 :=
    if strEndsWith p2 "/index.html" then strDropRight p2 ("index.html".length)
    else if strEndsWith p2 ".html" then strDropRight p2 (".html".length)
    else p2
  if strStartsWith p3 "/" then p3 else "/" ++ p3

/-- Model of Node `path.relative(root, fp)` in the configuration the
checker uses it: every document path handed to `addBrokenLink` lives
inside the build output directory, so the relative path is obtained by
stripping the `root ++ "/"` front. -/
def pathRelative (root fp : String) : String :=
  if strStartsWith fp (root ++ "/") then strDrop fp (root ++ "/").length else fp

/-- `normalizeHtmlFilePath` from `src/phases/utils.js`. -/
def normalizeHtmlFilePath (filePath distPath : String) : String :=
  normalizePath (if distPath = "" then filePath else pathRelative distPath filePath)

/-- The `brokenLinksMap`: a `Map` from the original reference string to a
`Set` of normalized document paths, modelled as a total function with
empty default. -/
abbrev BrokenMap := String → Finset String

/-- The empty `brokenLinksMap`. -/
def emptyBroken : BrokenMap := fun _ => ∅

/-- `addBrokenLink` from the source: key by the original broken link
string; add the normalized document path to the key's set. -/
def addBrokenLink (m : BrokenMap) (documentPath brokenLink distPath : String) : BrokenMap :=
  fun k =>
    if k = brokenLink then insert (normalizeHtmlFilePath documentPath distPath) (m brokenLink)
    else m k

/-- One observable side effect of processing a link: a filesystem
existence probe, a `fetch` attempt, or the error log emitted when URL
resolution throws. -/
inductive IOEvent where
  | fsCheck (path : String)
  | fetchGet (url : String) (attempt : Nat)
  | logInvalidUrl (link : String)
  deriving DecidableEq

/-- The ambient collaborators of `checkLinksInHtml`: configuration plus
the abstracted filesystem, network, URL resolver and string codecs.
`urlPathname s` is the `pathname` of `new URL(s, "https://localhost" +
baseUrl)`, or `none` when the constructor throws. -/
structure Env where
  distPath : String
  redirects : String → Option Redirect
  fs : String → FsResult
  fetchOutcome : String → Nat → FetchOutcome
  urlPathname : String → Option String
  decodeURIComponent : String → String
  encodeURI : String → String
  checkExternalLinks : Bool

/-- The mutable state shared by all per-link tasks of one build. -/
structure CheckState where
  checkedLinks : Cache
  brokenLinksMap : BrokenMap

/-- `link.includes('%') ? link : encodeURI(link)`. -/
def properlyEncodedLink (env : Env) (link : String) : String :=
  if strContainsChar link '%' then link else env.encodeURI link

/-- The `absoluteLink` computation: absolute URLs are kept verbatim,
anything else is resolved against the synthetic localhost base, `none`
when the URL constructor throws. -/
def resolveAbsolute (env : Env) (link : String) : Option String :=
  if isAbsoluteUrl link then some link
  else env.urlPathname (properlyEncodedLink env link)

/-- `let fetchLink = link; if (absoluteLink.startsWith('/') && distPath)
fetchLink = absoluteLink;`. -/
def initialFetchLink (env : Env) (link absoluteLink : String) : String :=
  if strStartsWith absoluteLink "/" = true ∧ env.distPath ≠ "" then absoluteLink else link

/-- `fetchLink.includes('%') ? decodeURIComponent(fetchLink) : fetchLink`. -/
def normalizedForm (env : Env) (f : String) : String :=
  if strContainsChar f '%' then env.decodeURIComponent f else f

/-- The dispatch on a cache miss: site-local links are checked on the
filesystem, external links over the network when `checkExternalLinks` is
set, and skipped (with `isBroken = false`) otherwise. Returns the verdict
together with the I/O trace of the check. -/
def performCheck (env : Env) (fetchLink : String) : Bool × List IOEvent :=
  if strStartsWith fetchLink "/" = true ∧ env.distPath ≠ "" then
    let decodedPath := env.decodeURIComponent fetchLink
    let r := probeTrace env.fs (possiblePaths env.distPath fetchLink decodedPath)
    (!r.2, r.1.map IOEvent.fsCheck)
  else if env.checkExternalLinks then
    (fetchIsBroken (env.fetchOutcome fetchLink),
     (List.range (fetchCallCount (env.fetchOutcome fetchLink))).map
       (fun i => IOEvent.fetchGet fetchLink i))
  else (false, [])

/-- The cache update after a fresh verdict: store under the fetch link,
under the absolute form, and, for each of the two that contains `%`, also
under its percent-decoded counterpart. -/
def cacheStoreVerdict (env : Env) (c : Cache) (fetchLink absoluteLink : String)
    (linkIsValid : Bool) : Cache :=
  let c1 := cacheSet c fetchLink linkIsValid
  let c2 := cacheSet c1 absoluteLink linkIsValid
  let c3 := if strContainsChar fetchLink '%' then
      cacheSet c2 (env.decodeURIComponent fetchLink) linkIsValid
    else c2
  if strContainsChar absoluteLink '%' then
    cacheSet c3 (env.decodeURIComponent absoluteLink) linkIsValid
  else c3

/-- The body of one per-link task inside `checkLinksInHtml`, for a single
`link` found in the document at `documentPath`: classification, URL
resolution, redirect, cache lookup, check, cache store and broken-link
recording. Returns the updated shared state and the trace of I/O the task
performed. -/
def processLink (env : Env) (st : CheckState) (documentPath link : String) :
    CheckState × List IOEvent :=
  if isValidUrl link then
    match resolveAbsolute env link with
    | none => (st, [.logInvalidUrl link])
    | some absoluteLink =>
      let fetchLink :=
        resolveRedirect env.redirects env.decodeURIComponent
          (initialFetchLink env link absoluteLink)
      match cacheGet2 st.checkedLinks fetchLink (normalizedForm env fetchLink) with
      | some cachedValid =>
        if cachedValid then (st, [])
        else
          ({ st with brokenLinksMap := addBrokenLink st.brokenLinksMap documentPath link env.distPath },
           [])
      | none =>
        let r := performCheck env fetchLink
        ({ checkedLinks := cacheStoreVerdict env st.checkedLinks fetchLink absoluteLink (!r.1),
           brokenLinksMap :=
             if r.1 then addBrokenLink st.brokenLinksMap documentPath link env.distPath
             else st.brokenLinksMap },
         r.2)
  else (st, [])

/-- Sequential processing of a list of links of one document (the order
in which the tasks complete when none of them interleaves). -/
def processLinks (env : Env) (st : CheckState) (documentPath : String) :
    List String → CheckState × List IOEvent
  | [] => (st, [])
  | l :: ls =>
    let r1 := processLink env st documentPath l
    let r2 := processLinks env r1.1 documentPath ls
    (r2.1, r1.2 ++ r2.2)

/-!
Interleaving model of concurrent per-link tasks sharing `checkedLinks`.

Under the single-threaded cooperative scheduling of the event loop, the
task body for an uncached external link runs synchronously from its start
(including the cache lookup) up to and including the initiation of the
`fetch` call, suspends at the `await`, and on resumption synchronously
stores the verdict and finishes. A task whose cache lookup hits finishes
synchronously without I/O. These are the atomic segments below; every
task of the model targets the same `%`-free external key, whose single
`fetch` attempt yields a response with `response.ok = fetchOk` (for such
a link the fetch link and the absolute form coincide, so the store writes
one key).
-/

/-- The progress of one per-link task in the interleaving model. -/
inductive TaskPhase where
  | ready
  | awaitingFetch
  | finished (valid : Bool)
  deriving DecidableEq

/-- Shared state of the interleaving model: the cache, the phase of each
task, and the number of `fetch` calls issued so far. -/
structure ConcState where
  cache : Cache
  tasks : List TaskPhase
  fetchCount : Nat
  deriving DecidableEq

/-- Run one atomic segment of task `i`. -/
def taskStep (key : String) (fetchOk : Bool) (s : ConcState) (i : Nat) : ConcState :=
  match s.tasks[i]? with
  | none => s
  | some .ready =>
    match cacheGet s.cache key with
    | some v => { s with tasks := s.tasks.set i (.finished v) }
    | none => { s with tasks := s.tasks.set i .awaitingFetch, fetchCount := s.fetchCount + 1 }
  | some .awaitingFetch =>
    { s with tasks := s.tasks.set i (.finished fetchOk),
             cache := cacheSet s.cache key fetchOk }
  | some (.finished _) => s

/-- Run a schedule: the list of task indices, in the order the event loop
grants them their next atomic segment. -/
def runSchedule (key : String) (fetchOk : Bool) : ConcState → List Nat → ConcState
  | s, [] => s
  | s, i :: rest => runSchedule key fetchOk (taskStep key fetchOk s i) rest

/-- Two tasks referencing the same key, nothing cached yet. -/
def twoTasksInit : ConcState :=
  { cache := [], tasks := [.ready, .ready], fetchCount := 0 }

/-! ### Helper lemmas -/

theorem cacheGet_cacheSet_self (c : Cache) (k : String) (v : Bool) :
    cacheGet (cacheSet c k v) k = some v := by
  induction c with
  | nil => simp [cacheSet, cacheGet]
  | cons hd tl ih =>
    obtain ⟨k2, v2⟩ := hd
    by_cases h : k2 = k
    · simp [cacheSet, cacheGet, h]
    · simp [cacheSet, cacheGet, h, ih]

theorem cacheGet_cacheSet_of_ne (c : Cache) (k k2 : String) (v : Bool) (h : k2 ≠ k) :
    cacheGet (cacheSet c k2 v) k = cacheGet c k := by
  induction c with
  | nil => simp [cacheSet, cacheGet, h]
  | cons hd tl ih =>
    obtain ⟨k3, v3⟩ := hd
    by_cases h3 : k3 = k2
    · subst h3
      simp [cacheSet, cacheGet, h]
    · simp only [cacheSet, if_neg h3, cacheGet]
      by_cases h4 : k3 = k
      · simp [h4]
      · simp [h4, ih]

/-- Storing the same value under any key preserves a `some v` lookup. -/
theorem cacheGet_cacheSet_same_val (c : Cache) (k k2 : String) (v : Bool)
    (h : cacheGet c k = some v) : cacheGet (cacheSet c k2 v) k = some v := by
  by_cases hk : k2 = k
  · subst hk; exact cacheGet_cacheSet_self c k2 v
  · rw [cacheGet_cacheSet_of_ne c k k2 v hk]; exact h

theorem probeTrace_snd (fs : String → FsResult) (l : List String) :
    (probeTrace fs l).2 = l.any (probeExists fs) := by
  induction l with
  | nil => simp [probeTrace]
  | cons p ps ih =>
    by_cases h : probeExists fs p = true
    · simp [probeTrace, h]
    · simp only [Bool.not_eq_true] at h
      simp [probeTrace, h, ih]

theorem probeExists_eq_true (fs : String → FsResult) (p : String) :
    probeExists fs p = true ↔ fs p = .found := by
  unfold probeExists
  cases h : fs p <;> simp

theorem probeExists_eq_false (fs : String → FsResult) (p : String) :
    probeExists fs p = false ↔ ¬ fs p = .found := by
  rw [← probeExists_eq_true]
  cases probeExists fs p <;> simp

/-- Reading a key after a store: the stored value if it is that key,
otherwise the previous content. -/
theorem cacheGet_chain (c : Cache) (v : Bool) (k k2 : String) :
    cacheGet (cacheSet c k2 v) k = if k2 = k then some v else cacheGet c k := by
  by_cases h : k2 = k
  · subst h; simp [cacheGet_cacheSet_self]
  · simp [h, cacheGet_cacheSet_of_ne _ _ _ _ h]

theorem fetchAttempts_zero (o : Nat → FetchOutcome) (i : Nat) :
    fetchAttempts o 0 i = (true, 0) := rfl

theorem fetchAttempts_one (o : Nat → FetchOutcome) (i : Nat) :
    fetchAttempts o 1 i =
      (match o i with
       | .response ok => (!ok, 1)
       | .connReset => ((fetchAttempts o 0 (i + 1)).1, (fetchAttempts o 0 (i + 1)).2 + 1)
       | .otherError => (true, 1)) := rfl

theorem fetchAttempts_two (o : Nat → FetchOutcome) (i : Nat) :
    fetchAttempts o 2 i =
      (match o i with
       | .response ok => (!ok, 1)
       | .connReset => ((fetchAttempts o 1 (i + 1)).1, (fetchAttempts o 1 (i + 1)).2 + 1)
       | .otherError => (true, 1)) := rfl

theorem fetchAttempts_three (o : Nat → FetchOutcome) (i : Nat) :
    fetchAttempts o 3 i =
      (match o i with
       | .response ok => (!ok, 1)
       | .connReset => ((fetchAttempts o 2 (i + 1)).1, (fetchAttempts o 2 (i + 1)).2 + 1)
       | .otherError => (true, 1)) := rfl

/-- The retry loop performs at most `fuel` fetch calls. -/
theorem fetchAttempts_count_le (o : Nat → FetchOutcome) :
    ∀ fuel i, (fetchAttempts o fuel i).2 ≤ fuel := by
  intro fuel
  induction fuel with
  | zero => intro i; simp [fetchAttempts]
  | succ n ih =>
    intro i
    cases h : o i with
    | response ok => simp [fetchAttempts, h]
    | connReset =>
      simp only [fetchAttempts, h]
      exact Nat.succ_le_succ (ih (i + 1))
    | otherError => simp [fetchAttempts, h]

/-!
### Concrete collaborators used to instantiate the theorems
-/

/-- The empty shared state at the start of a build. -/
def initState : CheckState := { checkedLinks := [], brokenLinksMap := emptyBroken }

/-- A baseline environment: build output at `dist`, no redirects, no file
present, every fetch answering `ok` at once, identity codecs (the links
exercised on it contain no characters that `encodeURI` or
`decodeURIComponent` would rewrite), and the URL resolver returning its
input (used only on inputs that are already absolute site paths). -/
def idEnv : Env :=
  { distPath := "dist", redirects := fun _ => none, fs := fun _ => .missing,
    fetchOutcome := fun _ _ => .response true,
    urlPathname := fun s => some s,
    decodeURIComponent := fun s => s, encodeURI := fun s => s,
    checkExternalLinks := true }

/-!
### Claim theorems
-/

/-- C4: a reference that is an empty string, a fragment-only reference, or
uses a `mailto:`, `tel:` or `javascript:` scheme is classified as skip by
`isValidUrl`, and processing it performs no filesystem or network I/O,
caches nothing, and leaves the broken-links map untouched (the per-link
task returns its shared state unchanged with an empty I/O trace). -/
theorem skip_classes_no_io_no_report :
    ∀ (env : Env) (st : CheckState) (d link : String),
      (link = "" ∨ strStartsWith link "#" = true ∨ strStartsWith link "mailto:" = true ∨
        strStartsWith link "tel:" = true ∨ strStartsWith link "javascript:" = true) →
      isValidUrl link = false ∧ processLink env st d link = (st, []) := by
  intro env st d link h
  have hv : isValidUrl link = false := by
    rcases h with h | h | h | h | h
    · subst h; decide
    · simp [isValidUrl, h]
    · simp [isValidUrl, h]
    · simp [isValidUrl, h]
    · simp [isValidUrl, h]
  exact ⟨hv, by simp [processLink, hv]⟩

/-- C4 witness: the fragment-only reference `#section` is skipped on a
concrete environment and state. -/
theorem skip_classes_no_io_no_report_witness :
    isValidUrl "#section" = false ∧
      processLink idEnv initState "dist/doc.html" "#section" = (initState, []) :=
  skip_classes_no_io_no_report idEnv initState "dist/doc.html" "#section"
    (Or.inr (Or.inl (by decide)))

/-- C9: when the reference survives the skip filter, is not an absolute
URL, and the URL constructor throws on it (`urlPathname` is `none`), the
task logs the failure and stops: the shared state is unchanged (so the
reference is neither cached nor ever reported broken) and the only event
is the error log — no existence or network check happens. -/
theorem malformed_reference_logged_and_skipped :
    ∀ (env : Env) (st : CheckState) (d link : String),
      isValidUrl link = true →
      isAbsoluteUrl link = false →
      env.urlPathname (properlyEncodedLink env link) = none →
      processLink env st d link = (st, [.logInvalidUrl link]) := by
  intro env st d link h1 h2 h3
  simp [processLink, h1, resolveAbsolute, h2, h3]

/-- C9 witness: the reference `//` (empty host, rejected by the WHATWG
URL constructor) is logged and skipped on a concrete environment. -/
theorem malformed_reference_logged_and_skipped_witness :
    processLink { idEnv with urlPathname := fun _ => none } initState "dist/doc.html" "//" =
      (initState, [.logInvalidUrl "//"]) :=
  malformed_reference_logged_and_skipped { idEnv with urlPathname := fun _ => none }
    initState "dist/doc.html" "//" (by decide) (by decide) rfl

/-- A redirect table with a two-hop chain, used to observe that only one
hop is resolved. -/
def chainTbl : String → Option Redirect :=
  fun s =>
    if s = "/a" then some (.plain "/b")
    else if s = "/b" then some (.plain "/c")
    else none

/-- C5: the redirect resolver consults the table under the fetch link's
own spelling first and its percent-decoded spelling second, returns the
configured destination for both the bare-string and the
`{ destination }` forms, returns the input unchanged when neither
spelling has an entry, and resolves exactly one hop: on a table chaining
`/a` to `/b` to `/c`, resolving `/a` gives `/b`, not `/c`. -/
theorem redirect_single_hop_contract :
    (∀ (tbl : String → Option Redirect) (decode : String → String) (p : String)
        (r : Redirect), tbl p = some r → resolveRedirect tbl decode p = redirectDest r) ∧
    (∀ (tbl : String → Option Redirect) (decode : String → String) (p : String)
        (r : Redirect), tbl p = none → tbl (decode p) = some r →
        resolveRedirect tbl decode p = redirectDest r) ∧
    (∀ (tbl : String → Option Redirect) (decode : String → String) (p : String),
        tbl p = none → tbl (decode p) = none → resolveRedirect tbl decode p = p) ∧
    (∀ s, redirectDest (.plain s) = s) ∧
    (∀ s, redirectDest (.structured s) = s) ∧
    (chainTbl "/b" = some (.plain "/c") ∧
      resolveRedirect chainTbl (fun s => s) "/a" = "/b") := by
  refine ⟨?_, ?_, ?_, fun s => rfl, fun s => rfl, by decide, by decide⟩
  · intro tbl decode p r h
    simp [resolveRedirect, h]
  · intro tbl decode p r h1 h2
    simp [resolveRedirect, h1, h2]
  · intro tbl decode p h1 h2
    simp [resolveRedirect, h1, h2]

/-- C5 witness: the contract applied on the chained table at `/a` and at
an absent key. -/
theorem redirect_single_hop_contract_witness :
    resolveRedirect chainTbl (fun s => s) "/a" = redirectDest (.plain "/b") ∧
      resolveRedirect chainTbl (fun s => s) "/nowhere" = "/nowhere" :=
  ⟨redirect_single_hop_contract.1 chainTbl (fun s => s) "/a" (.plain "/b") (by decide),
   redirect_single_hop_contract.2.2.1 chainTbl (fun s => s) "/nowhere" (by decide) (by decide)⟩

/-- C6: the local existence verdict is "exists" exactly when one of the
candidate paths exists: the exact path, the path with `index.html` under
it, and the path with `.html` appended, built from the percent-decoded
base and, when the decoded form differs from the fetch link, also from
the original encoded base. A probe whose filesystem call throws is
indistinguishable from a missing file: collapsing every `errored` answer
to `missing` leaves the verdict unchanged. -/
theorem local_existence_candidates :
    ∀ (fs : String → FsResult) (dist f d : String),
      (localLinkBroken fs dist f d = false ↔
        fs (pathJoin dist d) = .found ∨
        fs (pathJoin (pathJoin dist d) "index.html") = .found ∨
        fs (pathJoin dist (d ++ ".html")) = .found ∨
        (d ≠ f ∧
          (fs (pathJoin dist f) = .found ∨
           fs (pathJoin (pathJoin dist f) "index.html") = .found ∨
           fs (pathJoin dist (f ++ ".html")) = .found))) ∧
      localLinkBroken (fun p => if fs p = .errored then .missing else fs p) dist f d =
        localLinkBroken fs dist f d := by
  intro fs dist f d
  constructor
  · by_cases h : d = f
    · subst h
      simp [localLinkBroken, probeTrace_snd, possiblePaths, probeExists_eq_true,
        probeExists_eq_false, or_assoc]
      tauto
    · simp [localLinkBroken, probeTrace_snd, possiblePaths, h, probeExists_eq_true,
        probeExists_eq_false, or_assoc]
      tauto
  · have hpe : probeExists (fun p => if fs p = .errored then .missing else fs p) = probeExists fs := by
      funext p
      unfold probeExists
      rcases hq : fs p <;> simp [hq]
    simp [localLinkBroken, probeTrace_snd, hpe]

/-- C8: `addBrokenLink` keys the entry by the original reference string
and inserts the normalized document path into its set: recording the same
pair twice equals recording it once, other keys are untouched, the value
set after a record is exactly the previous set plus the normalized
document path, the normalizer strips queries and fragments, collapses
`index.html` and `.html` and forces a leading slash, and recording
`/missing.jpg` from `dist/a.html` and `dist/b.html` yields exactly the
set of documents `/a` and `/b` under the key `/missing.jpg`. -/
theorem aggregator_idempotent_sets :
    (∀ (m : BrokenMap) (d ref dist : String),
      addBrokenLink (addBrokenLink m d ref dist) d ref dist = addBrokenLink m d ref dist) ∧
    (∀ (m : BrokenMap) (d ref dist : String),
      addBrokenLink m d ref dist ref = insert (normalizeHtmlFilePath d dist) (m ref)) ∧
    (∀ (m : BrokenMap) (d ref dist k : String), k ≠ ref → addBrokenLink m d ref dist k = m k) ∧
    normalizeHtmlFilePath "dist/a.html" "dist" = "/a" ∧
    normalizePath "/p/q?x=1#frag" = "/p/q" ∧
    normalizePath "/d/index.html" = "/d/" ∧
    normalizePath "sub/p.html" = "/sub/p" ∧
    addBrokenLink (addBrokenLink emptyBroken "dist/a.html" "/missing.jpg" "dist")
        "dist/b.html" "/missing.jpg" "dist" "/missing.jpg" = ({"/a", "/b"} : Finset String) := by
  refine ⟨?_, ?_, ?_, by decide, by decide, by decide, by decide, by decide⟩
  · intro m d ref dist
    funext k
    by_cases h : k = ref
    · subst h; simp [addBrokenLink]
    · simp [addBrokenLink, h]
  · intro m d ref dist
    simp [addBrokenLink]
  · intro m d ref dist k h
    simp [addBrokenLink, h]

/-- C8 witness: the aggregator applied twice on the same concrete pair,
and on a different key. -/
theorem aggregator_idempotent_sets_witness :
    addBrokenLink (addBrokenLink emptyBroken "dist/a.html" "/missing.jpg" "dist")
        "dist/a.html" "/missing.jpg" "dist" =
      addBrokenLink emptyBroken "dist/a.html" "/missing.jpg" "dist" ∧
    addBrokenLink emptyBroken "dist/a.html" "/missing.jpg" "dist" "/other" = emptyBroken "/other" :=
  ⟨aggregator_idempotent_sets.1 emptyBroken "dist/a.html" "/missing.jpg" "dist",
   aggregator_idempotent_sets.2.2.1 emptyBroken "dist/a.html" "/missing.jpg" "dist" "/other"
     (by decide)⟩

/-- C2 counterexample: a host whose fetch raises a connection reset on
the first three attempts and would answer `ok` on a fourth is reported
broken — the loop `while (retries < 3)` performs at most 3 fetch calls
(1 initial + 2 retries), so the claimed fourth attempt never happens;
likewise a host resetting forever receives only 3 calls, never 4. -/
theorem retry_three_resets_then_ok_counterexample :
    fetchIsBroken (fun i => if i < 3 then .connReset else .response true) = true ∧
    fetchCallCount (fun i => if i < 3 then .connReset else .response true) = 3 ∧
    fetchCallCount (fun _ => .connReset) = 3 := by
  decide

/-- C2 amended: a connection reset is retried up to 2 additional attempts
(3 total, with no delay between attempts): at most 3 fetch calls ever
happen; two resets followed by an `ok` response give a valid verdict on
the third call; three resets give a broken verdict; a response or any
other error is terminal on the first attempt. At the pipeline level an
uncached external link is recorded in the broken-links map exactly when
the retry loop's verdict is broken. -/
theorem retry_bounded_policy :
    (∀ o : Nat → FetchOutcome,
      fetchCallCount o ≤ 3 ∧
      (o 0 = .connReset → o 1 = .connReset → o 2 = .response true →
        fetchIsBroken o = false ∧ fetchCallCount o = 3) ∧
      (o 0 = .connReset → o 1 = .connReset → o 2 = .connReset → fetchIsBroken o = true) ∧
      (∀ ok, o 0 = .response ok → fetchIsBroken o = !ok ∧ fetchCallCount o = 1) ∧
      (o 0 = .otherError → fetchIsBroken o = true ∧ fetchCallCount o = 1)) ∧
    (∀ (env : Env) (st : CheckState) (d link : String),
      env.checkExternalLinks = true →
      isValidUrl link = true → isAbsoluteUrl link = true →
      strStartsWith link "/" = false →
      env.redirects link = none → env.redirects (env.decodeURIComponent link) = none →
      strContainsChar link '%' = false →
      cacheGet st.checkedLinks link = none →
      (processLink env st d link).1.brokenLinksMap =
        (if fetchIsBroken (env.fetchOutcome link) then
          addBrokenLink st.brokenLinksMap d link env.distPath
        else st.brokenLinksMap)) := by
  constructor
  · intro o
    refine ⟨fetchAttempts_count_le o 3 0, ?_, ?_, ?_, ?_⟩
    · intro h0 h1 h2
      constructor <;>
        simp [fetchIsBroken, fetchCallCount, fetchAttempts_three, fetchAttempts_two,
          fetchAttempts_one, h0, h1, h2]
    · intro h0 h1 h2
      simp [fetchIsBroken, fetchAttempts_three, fetchAttempts_two, fetchAttempts_one,
        fetchAttempts_zero, h0, h1, h2]
    · intro ok h0
      constructor <;> simp [fetchIsBroken, fetchCallCount, fetchAttempts_three, h0]
    · intro h0
      constructor <;> simp [fetchIsBroken, fetchCallCount, fetchAttempts_three, h0]
  · intro env st d link hext hv habs hsl hr1 hr2 hpc hc
    have hfl : initialFetchLink env link link = link := by
      unfold initialFetchLink
      split <;> rfl
    simp [processLink, hv, resolveAbsolute, habs, hfl, resolveRedirect, hr1, hr2,
      normalizedForm, hpc, cacheGet2, hc, performCheck, hsl, hext]

/-- C2 witness: two resets then success is valid after 3 calls, and a
flaky external host that resets twice is reported according to the retry
verdict on a concrete environment. -/
theorem retry_bounded_policy_witness :
    (fetchIsBroken (fun i => if i < 2 then .connReset else .response true) = false ∧
      fetchCallCount (fun i => if i < 2 then .connReset else .response true) = 3) ∧
    (processLink { idEnv with fetchOutcome := fun _ i => if i < 2 then .connReset else .response true }
        initState "dist/doc.html" "http://flaky.example/").1.brokenLinksMap =
      (if fetchIsBroken
          (({ idEnv with fetchOutcome := fun _ i => if i < 2 then .connReset else .response true } : Env).fetchOutcome
            "http://flaky.example/") then
        addBrokenLink initState.brokenLinksMap "dist/doc.html" "http://flaky.example/" "dist"
      else initState.brokenLinksMap) :=
  ⟨(retry_bounded_policy.1 (fun i => if i < 2 then .connReset else .response true)).2.1
      (by decide) (by decide) (by decide),
   retry_bounded_policy.2
      { idEnv with fetchOutcome := fun _ i => if i < 2 then .connReset else .response true }
      initState "dist/doc.html" "http://flaky.example/"
      rfl (by decide) (by decide) (by decide) rfl rfl (by decide) rfl⟩

/-- C1 counterexample: two tasks referencing the same uncached external
key, interleaved as the event loop may interleave them (both pass the
cache lookup and issue their fetch before either completes): the
underlying I/O runs twice, not at most once — the code installs no
in-flight placeholder between its cache check and its cache write. -/
theorem dedup_concurrent_double_fetch_counterexample :
    (runSchedule "https://example.com/a" true twoTasksInit [0, 1, 0, 1]).fetchCount = 2 ∧
    ¬ (runSchedule "https://example.com/a" true twoTasksInit [0, 1, 0, 1]).fetchCount ≤ 1 := by
  decide

/-- C1 amended: deduplication holds only across completed checks: when a
task runs after another has completed and recorded the verdict (the
sequential schedule), the I/O runs once and the second task observes the
cached verdict; in general any task whose first segment finds the key
cached performs no I/O and finishes with the recorded verdict. Tasks that
pass the cache lookup concurrently each perform the I/O. -/
theorem dedup_after_completion_only :
    (∀ (key : String) (ok : Bool),
      (runSchedule key ok twoTasksInit [0, 0, 1]).fetchCount = 1 ∧
      (runSchedule key ok twoTasksInit [0, 0, 1]).tasks = [.finished ok, .finished ok]) ∧
    (∀ (key : String) (ok : Bool) (s : ConcState) (i : Nat) (v : Bool),
      cacheGet s.cache key = some v → s.tasks[i]? = some .ready →
      (taskStep key ok s i).fetchCount = s.fetchCount ∧
      (taskStep key ok s i).tasks = s.tasks.set i (.finished v)) := by
  constructor
  · intro key ok
    constructor <;>
      simp [runSchedule, taskStep, twoTasksInit, cacheGet, cacheSet, List.get?, List.set]
  · intro key ok s i v h1 h2
    constructor <;> simp [taskStep, h1, h2]

/-- C1 witness: the sequential schedule on a concrete key, and one step
of a ready task on a state whose cache already holds a verdict for the
key. -/
theorem dedup_after_completion_only_witness :
    ((runSchedule "https://example.com/a" true twoTasksInit [0, 0, 1]).fetchCount = 1 ∧
      (runSchedule "https://example.com/a" true twoTasksInit [0, 0, 1]).tasks =
        [.finished true, .finished true]) ∧
    (taskStep "k" true ⟨[("k", false)], [.ready], 5⟩ 0).fetchCount = 5 :=
  ⟨dedup_after_completion_only.1 "https://example.com/a" true,
   (dedup_after_completion_only.2 "k" true ⟨[("k", false)], [.ready], 5⟩ 0 false
      (by decide) (by decide)).1⟩

/-- An environment in which the URL resolver behaves as the WHATWG
constructor does on a protocol-relative reference: `new
URL("//example.com/page", "https://localhost/...")` denotes
`https://example.com/page`, whose `pathname` is `/page`. -/
def env7 : Env :=
  { idEnv with urlPathname := fun s => if s = "//example.com/page" then some "/page" else some s }

/-- C7 counterexample: the protocol-relative reference
`//example.com/page` is not matched by the absolute-URL test (the second
regular expression tests for a leading `://`, not `//`), so it is
resolved to its pathname `/page` and checked on the filesystem — the
events are existence probes under the build output, no network request —
and, the file being absent, it is recorded broken as a site-local path,
not checked as an external URL. -/
theorem protocol_relative_checked_locally_counterexample :
    isAbsoluteUrl "//example.com/page" = false ∧
    (processLink env7 initState "dist/doc.html" "//example.com/page").2 =
      [.fsCheck "dist/page", .fsCheck "dist/page/index.html", .fsCheck "dist/page.html"] ∧
    (processLink env7 initState "dist/doc.html" "//example.com/page").1.brokenLinksMap
        "//example.com/page" = {"/doc"} := by
  decide

/-- C7 amended: the classifier is a pure function of the reference's
syntax, marking as absolute exactly the references beginning
(case-insensitively) with `http://` or `https://`, or beginning with
`://`; an uncached, unredirected absolute reference is checked over the
network, while every other resolvable reference — including
protocol-relative `//host/path`, whose resolved pathname starts with
`/` — is checked as a site-local path on the filesystem. -/
theorem classifier_dispatch_amended :
    (isAbsoluteUrl "http://example.com" = true ∧ isAbsoluteUrl "HTTPS://EXAMPLE.COM/x" = true ∧
      isAbsoluteUrl "://odd" = true ∧ isAbsoluteUrl "//example.com/page" = false ∧
      isAbsoluteUrl "/about" = false ∧ isAbsoluteUrl "page.html" = false) ∧
    (∀ (env : Env) (st : CheckState) (d link : String),
      isValidUrl link = true → isAbsoluteUrl link = true →
      strStartsWith link "/" = false →
      env.redirects link = none → env.redirects (env.decodeURIComponent link) = none →
      strContainsChar link '%' = false →
      cacheGet st.checkedLinks link = none →
      env.checkExternalLinks = true →
      (processLink env st d link).2 =
        (List.range (fetchCallCount (env.fetchOutcome link))).map
          (fun i => IOEvent.fetchGet link i)) ∧
    (∀ (env : Env) (st : CheckState) (d link pp : String),
      isValidUrl link = true → isAbsoluteUrl link = false →
      env.urlPathname (properlyEncodedLink env link) = some pp →
      strStartsWith pp "/" = true → env.distPath ≠ "" →
      env.redirects pp = none → env.redirects (env.decodeURIComponent pp) = none →
      strContainsChar pp '%' = false →
      cacheGet st.checkedLinks pp = none →
      (processLink env st d link).2 =
        (probeTrace env.fs (possiblePaths env.distPath pp (env.decodeURIComponent pp))).1.map
          IOEvent.fsCheck) := by
  refine ⟨by decide, ?_, ?_⟩
  · intro env st d link hv habs hsl hr1 hr2 hpc hc hext
    have hfl : initialFetchLink env link link = link := by
      unfold initialFetchLink
      split <;> rfl
    simp [processLink, hv, resolveAbsolute, habs, hfl, resolveRedirect, hr1, hr2,
      normalizedForm, hpc, cacheGet2, hc, performCheck, hsl, hext]
  · intro env st d link pp hv habs hurl hsp hdp hr1 hr2 hpc hc
    simp [processLink, hv, resolveAbsolute, habs, hurl, initialFetchLink, hsp, hdp,
      resolveRedirect, hr1, hr2, normalizedForm, hpc, cacheGet2, hc, performCheck]

/-- C7 witness: the dispatch applied to a concrete absolute URL (network
events) and to the concrete protocol-relative reference (filesystem
events). -/
theorem classifier_dispatch_amended_witness :
    (processLink idEnv initState "dist/doc.html" "http://example.com/x").2 =
      (List.range (fetchCallCount (idEnv.fetchOutcome "http://example.com/x"))).map
        (fun i => IOEvent.fetchGet "http://example.com/x" i) ∧
    (processLink env7 initState "dist/doc.html" "//example.com/page").2 =
      (probeTrace env7.fs (possiblePaths env7.distPath "/page" (env7.decodeURIComponent "/page"))).1.map
        IOEvent.fsCheck :=
  ⟨classifier_dispatch_amended.2.1 idEnv initState "dist/doc.html" "http://example.com/x"
      (by decide) (by decide) (by decide) rfl rfl (by decide) rfl rfl,
   classifier_dispatch_amended.2.2 env7 initState "dist/doc.html" "//example.com/page" "/page"
      (by decide) (by decide) (by decide) (by decide) (by decide) (by decide) (by decide)
      (by decide) rfl⟩

/-- The baseline environment with remote checking disabled. -/
def envNoExt : Env := { idEnv with checkExternalLinks := false }

/-- C3 counterexample: with remote checking disabled, processing an
unreachable external URL indeed performs no I/O and adds nothing to the
broken-links map, but a verdict IS recorded for it: the validity cache
maps the URL to `true` (valid) afterwards, contradicting that no
valid/broken verdict is recorded for external targets. -/
theorem external_disabled_records_valid_counterexample :
    (processLink envNoExt initState "dist/doc.html" "https://unreachable.example/").2 = [] ∧
    (processLink envNoExt initState "dist/doc.html" "https://unreachable.example/").1.brokenLinksMap
        "https://unreachable.example/" = ∅ ∧
    cacheGet
        (processLink envNoExt initState "dist/doc.html" "https://unreachable.example/").1.checkedLinks
        "https://unreachable.example/" = some true := by
  decide

/-- C3 amended: with remote checking disabled, an uncached external
target triggers no filesystem or network I/O and is never added to the
broken-links map — but it is not verdict-free: the validity cache records
it as valid. -/
theorem external_disabled_skip_amended :
    ∀ (env : Env) (st : CheckState) (d link : String),
      env.checkExternalLinks = false →
      isValidUrl link = true → isAbsoluteUrl link = true →
      strStartsWith link "/" = false →
      env.redirects link = none → env.redirects (env.decodeURIComponent link) = none →
      strContainsChar link '%' = false →
      cacheGet st.checkedLinks link = none →
      (processLink env st d link).2 = [] ∧
      (processLink env st d link).1.brokenLinksMap = st.brokenLinksMap ∧
      cacheGet (processLink env st d link).1.checkedLinks link = some true := by
  intro env st d link hext hv habs hsl hr1 hr2 hpc hc
  have hfl : initialFetchLink env link link = link := by
    unfold initialFetchLink
    split <;> rfl
  refine ⟨?_, ?_, ?_⟩ <;>
    simp [processLink, hv, resolveAbsolute, habs, hfl, resolveRedirect, hr1, hr2,
      normalizedForm, hpc, cacheGet2, hc, performCheck, hsl, hext,
      cacheStoreVerdict, cacheGet_chain]

/-- C3 witness: the amended behavior on the concrete disabled-mode
environment and an unreachable external URL. -/
theorem external_disabled_skip_amended_witness :
    (processLink envNoExt initState "dist/doc.html" "https://down.example/").2 = [] ∧
    (processLink envNoExt initState "dist/doc.html" "https://down.example/").1.brokenLinksMap =
      initState.brokenLinksMap ∧
    cacheGet (processLink envNoExt initState "dist/doc.html" "https://down.example/").1.checkedLinks
      "https://down.example/" = some true :=
  external_disabled_skip_amended envNoExt initState "dist/doc.html" "https://down.example/"
    rfl (by decide) (by decide) (by decide) rfl rfl (by decide) rfl

/-- An environment with a redirect whose source (`/x`) is also a
checkable target in its own right: `/y` redirects to `/x`, `/x` redirects
to `/z`; the file `x.html` exists in the build output, `z` does not. -/
def env10 : Env :=
  { idEnv with
    redirects := fun s =>
      if s = "/y" then some (.plain "/x")
      else if s = "/x" then some (.plain "/z")
      else none,
    fs := fun p => if p = "dist/x.html" then .found else .missing }

/-- C10 counterexample: a cached verdict can be overwritten. Processing
`/y` (redirected to `/x`, which exists as `x.html`) caches `/x` as valid;
processing `/x` afterwards follows its redirect to the missing `/z` and
stores the broken verdict under its pre-redirect absolute form `/x`,
overwriting the cached valid verdict for `/x` with `false`. -/
theorem cache_overwrite_counterexample :
    cacheGet (processLink env10 initState "dist/a.html" "/y").1.checkedLinks "/x" = some true ∧
    cacheGet
      (processLink env10 (processLink env10 initState "dist/a.html" "/y").1
        "dist/a.html" "/x").1.checkedLinks "/x" = some false := by
  decide

/-- C10 amended: a fresh verdict is stored under the fetch key, under the
resolved absolute form, and, for each of the two that contains `%`, also
under its percent-decoded counterpart (but a later store may overwrite an
existing entry, as when a redirect source collides with a previously
cached key); and once an external link is cached as valid — as happens
when remote checking is disabled — every later occurrence of that key is
resolved as a valid cache hit, with no I/O and no state change. -/
theorem cache_store_keys_amended :
    (∀ (env : Env) (c : Cache) (f a : String) (v : Bool),
      cacheGet (cacheStoreVerdict env c f a v) f = some v ∧
      cacheGet (cacheStoreVerdict env c f a v) a = some v ∧
      (strContainsChar f '%' = true →
        cacheGet (cacheStoreVerdict env c f a v) (env.decodeURIComponent f) = some v) ∧
      (strContainsChar a '%' = true →
        cacheGet (cacheStoreVerdict env c f a v) (env.decodeURIComponent a) = some v)) ∧
    (∀ (env : Env) (st : CheckState) (d link : String),
      isValidUrl link = true → isAbsoluteUrl link = true →
      strStartsWith link "/" = false →
      env.redirects link = none → env.redirects (env.decodeURIComponent link) = none →
      strContainsChar link '%' = false →
      cacheGet st.checkedLinks link = some true →
      processLink env st d link = (st, [])) := by
  constructor
  · intro env c f a v
    by_cases hf : strContainsChar f '%' = true <;> by_cases ha : strContainsChar a '%' = true <;>
      refine ⟨?_, ?_, ?_, ?_⟩ <;>
        simp [cacheStoreVerdict, hf, ha, cacheGet_chain]
  · intro env st d link hv habs hsl hr1 hr2 hpc hc
    have hfl : initialFetchLink env link link = link := by
      unfold initialFetchLink
      split <;> rfl
    simp [processLink, hv, resolveAbsolute, habs, hfl, resolveRedirect, hr1, hr2,
      normalizedForm, hpc, cacheGet2, hc]

/-- An environment whose percent-decoder rewrites the one encoded key
used in the witness below. -/
def envPct : Env :=
  { idEnv with decodeURIComponent := fun s => if s = "/f%20x" then "/f x" else s }

/-- C10 witness: the store applied with a `%`-bearing fetch key, and a
valid cache hit for an already-cached external URL. -/
theorem cache_store_keys_amended_witness :
    cacheGet (cacheStoreVerdict envPct [] "/f%20x" "/abs" true)
      (envPct.decodeURIComponent "/f%20x") = some true ∧
    processLink envNoExt
        { checkedLinks := [("https://unreachable.example/", true)], brokenLinksMap := emptyBroken }
        "dist/doc.html" "https://unreachable.example/" =
      ({ checkedLinks := [("https://unreachable.example/", true)], brokenLinksMap := emptyBroken },
        []) :=
  ⟨(cache_store_keys_amended.1 envPct [] "/f%20x" "/abs" true).2.2.1 (by decide),
   cache_store_keys_amended.2 envNoExt
     ⟨[("https://unreachable.example/", true)], emptyBroken⟩
     "dist/doc.html" "https://unreachable.example/"
     (by decide) (by decide) (by decide) rfl rfl (by decide) (by decide)⟩

end BrokenLinks
